import Mathlib

/-!
Verification of the schedule-analysis core of the nola-buddy-api server
(`src/unnamed/part_000`, with `src/server.js` as a near-duplicate variant).

The embedding models a Notion page as seen through `readProp`: the analysis
handlers only ever read the properties `Name` (title), `Status` (status),
`Type` / `Priority Level` / `Alignment` (select) and `Do Date` / `Due Date`
(date).  Date starts are carried as parsed epoch milliseconds (the code calls
`new Date(iso).getTime()` on the raw ISO strings; a well-formed start string is
never empty, so JS truthiness of the string coincides with presence).
-/

namespace NolaBuddy

/-- A date property value as returned by `readProp(page, key)` for a
date-kind property: the code only consumes its `start` field. -/
structure DateProp where
  start : Option Int
  deriving Repr, DecidableEq

/-- Projection of a Notion page to the properties read by the analysis
handlers.  An `Option.none` field models a missing property (for which
`readProp` returns `null`). -/
structure Page where
  id : String
  name : Option String
  status : Option String
  type : Option String
  priority : Option String
  alignment : Option String
  doDate : Option DateProp
  dueDate : Option DateProp
  deriving Repr, DecidableEq

/-- `readProp(page, 'Do Date')?.start || null`. -/
def doStart (p : Page) : Option Int :=
  match p.doDate with
  | some d => d.start
  | none => none

/-- `readProp(page, 'Due Date')?.start || null`. -/
def dueStart (p : Page) : Option Int :=
  match p.dueDate with
  | some d => d.start
  | none => none

/-- `readProp(page, 'Status') || ''`. -/
def getStatus (p : Page) : String := p.status.getD ""

/-- `readProp(page, 'Priority Level') || ''`. -/
def getPriority (p : Page) : String := p.priority.getD ""

/-- `readProp(page, 'Type') || ''`. -/
def getType (p : Page) : String := p.type.getD ""

/-- `readProp(page, 'Alignment') || ''`. -/
def getAlign (p : Page) : String := p.alignment.getD ""

/-- `readProp(page, 'Name') || '(Untitled)'` (an empty joined title text is
falsy in JS, hence also replaced). -/
def getName (p : Page) : String :=
  match p.name with
  | some s => if s = "" then "(Untitled)" else s
  | none => "(Untitled)"

/-- The `which` component of `getPrimaryWhen`: `dd ? 'do' : 'due'`. -/
def primaryWhich (p : Page) : String :=
  if (doStart p).isSome then "do" else "due"

/-- The resolved primary instant of `getPrimaryWhen`: `dd || due`
(do-start if present, else due-start). -/
def primaryDate (p : Page) : Option Int :=
  match doStart p with
  | some t => some t
  | none => dueStart p

/-- `coachWhyMatters(page)`. -/
def coachWhyMatters (p : Page) : String :=
  if getPriority p = "HIGH" then "High-impact lever — moves a top outcome forward."
  else if getType p = "Event" then "Time-bound; missing it creates downstream delays."
  else if getType p = "Call" then "Maintains momentum and unblocks next steps."
  else "Keeps your cadence strong and reduces task spillover."

/-- `coachNextMove(page)`. -/
def coachNextMove (p : Page) : String :=
  if getType p = "Call" then "Confirm agenda + dial in five minutes early."
  else if getType p = "Event" then "Skim notes + prep one question to ask."
  else "Define the first 10-minute action and start it."

/-- `coachFixNow()`: constant, not item-dependent. -/
def coachFixNow : String :=
  "Do the smallest unblocked step right now and log it in the page."

/-- Milliseconds of a whole day. -/
def dayMs : Int := 86400000

/-- The fixed zone offset (milliseconds to add to a UTC epoch to get the
zone-local wall clock) used when rendering clock labels in the concrete
examples: America/Chicago during daylight saving time, UTC-5.  The source
delegates this rendering to `toLocaleString`; the actual digits rendered are a
presentation concern, only used here to give gap windows a concrete label. -/
def chiDisplayOffsetMs : Int := -18000000

/-- Two-digit zero padding of a minute count. -/
def pad2 (n : Nat) : String :=
  if n < 10 then "0" ++ toString n else toString n

/-- Model of `Date.toLocaleString('en-US', { timeZone: TZ, hour: 'numeric',
minute: '2-digit' })`: a 12-hour zone-local clock label such as `9:30 AM`. -/
def localClock (t : Int) : String :=
  let mins : Int := ((t + chiDisplayOffsetMs) % dayMs) / 60000
  let h24 : Int := mins / 60
  let mo : Int := mins % 60
  let h12 : Int := if h24 % 12 = 0 then 12 else h24 % 12
  toString h12 ++ ":" ++ pad2 mo.toNat ++ (if h24 < 12 then " AM" else " PM")

/-- A coach line as built by `asCoachLine` in the `/analysis/today` handler. -/
structure CoachLine where
  id : String
  line : String
  why : String
  next : String
  fix : String
  suggestReminder : Bool
  deriving Repr, DecidableEq

/-- `asCoachLine(page, which, now)`. -/
def asCoachLine (p : Page) (which : String) (now : Int) : CoachLine :=
  let dd := doStart p
  let due := dueStart p
  let label := if which = "do" then "Do" else "Due"
  let dt : Option Int := if which = "do" then dd else due
  let timeLabel := match dt with
    | some t => localClock t
    | none => "no time"
  { id := p.id
    line := "**" ++ getName p ++ "** — " ++ label ++ " • " ++ timeLabel
      ++ (if getType p ≠ "" then " — " ++ getType p else "")
      ++ (if getAlign p ≠ "" then " — " ++ getAlign p else "")
      ++ " — Status: " ++ (if getStatus p ≠ "" then getStatus p else "N/A")
    why := coachWhyMatters p
    next := coachNextMove p
    fix := coachFixNow
    suggestReminder := match dt with
      | some t => decide (now < t)
      | none => false }

/-- JS `String.prototype.includes(c)` for a single-character needle,
computed on the character list so that concrete instances reduce. -/
def jsIncludes (s : String) (c : Char) : Bool := s.data.contains c

/-- Split a character list at every occurrence of the separator character. -/
def splitCharList (c : Char) : List Char → List (List Char)
  | [] => [[]]
  | x :: xs =>
    let r := splitCharList c xs
    if x = c then [] :: r
    else
      match r with
      | [] => [[x]]
      | h :: t => (x :: h) :: t

/-- JS `String.prototype.split(c)` for a single-character separator
(`"a//b".split('/')` is `["a", "", "b"]`). -/
def jsSplit (s : String) (c : Char) : List String :=
  (splitCharList c s.data).map String.mk

/-- JS `String.prototype.padStart(n, c)`. -/
def jsPadStart (s : String) (n : Nat) (c : Char) : String :=
  if n ≤ s.length then s else String.mk (List.replicate (n - s.length) c) ++ s

/-- JS string coercion of a possibly-undefined value (template literals render
`undefined` as the text `undefined`). -/
def jsStr : Option String → String
  | some s => s
  | none => "undefined"

/-- `toISOLocal(dateStr, timeStr)` (src/unnamed/part_000 lines 66-79): the
destructuring `[m, d, y] = dateStr.includes('/') ? dateStr.split('/') : [null,
null, null]` yields possibly-undefined components, and only a truthy `y`
(present and nonempty) selects the `MM/DD/YYYY` rebuild branch; `timeStr` is
optional and an absent or empty time falls back to `00:00:00`. -/
def toISOLocal (dateStr : String) (timeStr : Option String) : String :=
  let parts := if jsIncludes dateStr '/' then jsSplit dateStr '/' else []
  let isoBase :=
    match parts.get? 2 with
    | some ys =>
      if ys = "" then dateStr
      else ys ++ "-" ++ jsPadStart (jsStr (parts.get? 0)) 2 '0'
              ++ "-" ++ jsPadStart (jsStr (parts.get? 1)) 2 '0'
    | none => dateStr
  let t :=
    match timeStr with
    | some ts => if ts = "" then "00:00:00" else ts ++ ":00"
    | none => "00:00:00"
  isoBase ++ "T" ++ t

/-- The `MM/DD/YYYY` date pattern named by the spec (two digit month and day,
four digit year, separated by slashes). -/
def matchesMMDDYYYY (s : String) : Bool :=
  match jsSplit s '/' with
  | [m, d, y] =>
    m.length = 2 && d.length = 2 && y.length = 4
      && m.data.all Char.isDigit && d.data.all Char.isDigit && y.data.all Char.isDigit
  | _ => false

/-- The `YYYY-MM-DD` date pattern named by the spec. -/
def matchesYYYYMMDD (s : String) : Bool :=
  match jsSplit s '-' with
  | [y, m, d] =>
    y.length = 4 && m.length = 2 && d.length = 2
      && y.data.all Char.isDigit && m.data.all Char.isDigit && d.data.all Char.isDigit
  | _ => false

/-- C7: a date that splits on `/` into month, day and a truthy year is
rebuilt as `YYYY-MM-DD`, so it agrees with the same calendar date written
directly in ISO form, for every time argument; an absent time defaults to
`00:00:00`, and the result always has the composite shape
`isoBase ++ "T" ++ time`. -/
theorem toISOLocal_slash_iso_agree (ds m d y : String) (t : Option String)
    (h1 : jsIncludes ds '/' = true)
    (h2 : jsSplit ds '/' = [m, d, y])
    (h3 : y ≠ "")
    (h4 : jsIncludes (y ++ "-" ++ jsPadStart m 2 '0' ++ "-" ++ jsPadStart d 2 '0') '/' = false) :
    toISOLocal ds t
        = toISOLocal (y ++ "-" ++ jsPadStart m 2 '0' ++ "-" ++ jsPadStart d 2 '0') t
      ∧ toISOLocal ds none
        = (y ++ "-" ++ jsPadStart m 2 '0' ++ "-" ++ jsPadStart d 2 '0') ++ "T" ++ "00:00:00"
      ∧ ∀ ts : String, ts ≠ "" →
          toISOLocal ds (some ts)
            = (y ++ "-" ++ jsPadStart m 2 '0' ++ "-" ++ jsPadStart d 2 '0') ++ "T" ++ (ts ++ ":00") := by
  unfold toISOLocal
  rw [h1, h4, h2]
  simp only [Bool.false_eq_true, if_true, if_false, List.get?]
  rw [if_neg h3]
  refine ⟨?_, ?_, ?_⟩
  · cases t with
    | none => simp [jsStr]
    | some ts =>
      by_cases hts : ts = "" <;> simp [jsStr, hts]
  · simp [jsStr]
  · intro ts hts
    simp [jsStr, hts]

/-- Witness for C7 at the spec's concrete pair of inputs. -/
theorem toISOLocal_slash_iso_agree_witness :
    toISOLocal "06/15/2024" (some "14:30") = toISOLocal "2024-06-15" (some "14:30")
      ∧ toISOLocal "06/15/2024" none = "2024-06-15T00:00:00" := by
  have h := toISOLocal_slash_iso_agree "06/15/2024" "06" "15" "2024" (some "14:30")
    (by decide) (by decide) (by decide) (by decide)
  exact ⟨h.1, h.2.1⟩

/-- C8: the code does not validate the date text.  `"garbage"` matches neither
accepted date pattern, yet `toISOLocal` returns the composite string
`garbageT00:00:00` instead of failing fast with a `FormatError`. -/
theorem toISOLocal_no_validation :
    matchesMMDDYYYY "garbage" = false
      ∧ matchesYYYYMMDD "garbage" = false
      ∧ toISOLocal "garbage" none = "garbageT00:00:00" := by
  decide

/-- C9: in a coach line, `suggestReminder` is true exactly when the instant
selected by `which` (`do` start for `"do"`, `due` start for `"due"`) exists
and is strictly after `now`. -/
theorem suggestReminder_iff (p : Page) (now : Int) :
    ((asCoachLine p "do" now).suggestReminder = true
        ↔ ∃ t, doStart p = some t ∧ now < t)
      ∧ ((asCoachLine p "due" now).suggestReminder = true
        ↔ ∃ t, dueStart p = some t ∧ now < t) := by
  constructor
  · cases h : doStart p <;> simp [asCoachLine, h]
  · cases h : dueStart p <;> simp [asCoachLine, h]

/-- A JS number that is either finite or `Infinity`, as used by the
`/analysis/7day` risk-watch filter (`t = first ? …getTime() : Infinity`). -/
inductive JsTime where
  | fin (t : Int)
  | inf
  deriving Repr, DecidableEq

/-- `t < soon` where `t` may be `Infinity` (`Infinity < soon` is false). -/
def JsTime.ltNum : JsTime → Int → Bool
  | .fin t, s => t < s
  | .inf, _ => false

/-- The `/analysis/7day` risk-watch predicate (src/unnamed/part_000 lines
550-557): `first = doStart || dueStart`, `t = first ? time : Infinity`,
keep iff `status === 'Not started' && t < soon`. -/
def risk7Pred (soon : Int) (p : Page) : Bool :=
  let first := primaryDate p
  let t : JsTime := match first with
    | some v => .fin v
    | none => .inf
  decide (getStatus p = "Not started") && t.ltNum soon

/-- `riskWatch` of the `/analysis/7day` handler. -/
def riskWatch7 (items : List Page) (soon : Int) : List Page :=
  items.filter (risk7Pred soon)

/-- The `/analysis/period` risk-watch predicate (src/unnamed/part_000 lines
642-645): status must be `'Not started'` and the resolved primary start,
when present, strictly earlier than `soon`; absent start returns false. -/
def riskPeriodPred (soon : Int) (p : Page) : Bool :=
  decide (getStatus p = "Not started") &&
    (match primaryDate p with
     | some t => decide (t < soon)
     | none => false)

/-- `riskWatch` of the `/analysis/period` handler (before line formatting). -/
def riskWatchPeriod (items : List Page) (soon : Int) : List Page :=
  items.filter (riskPeriodPred soon)

/-- Hours 48 in milliseconds: `48 * 3600 * 1000`. -/
def soonWindowMs : Int := 48 * 3600 * 1000

/-- C5: `riskWatch` holds exactly the items whose status is `Not started`
and whose resolved primary instant exists and is strictly before
`now + 48h`; in particular an item with neither a do nor a due start is
never selected. -/
theorem riskWatch7_mem_iff (items : List Page) (now : Int) :
    (∀ p : Page, p ∈ riskWatch7 items (now + soonWindowMs)
        ↔ p ∈ items ∧ getStatus p = "Not started"
          ∧ ∃ t, primaryDate p = some t ∧ t < now + soonWindowMs)
      ∧ ∀ p ∈ items, doStart p = none → dueStart p = none →
          p ∉ riskWatch7 items (now + soonWindowMs) := by
  constructor
  · intro p
    rw [riskWatch7, List.mem_filter]
    cases h : primaryDate p <;>
      simp [risk7Pred, JsTime.ltNum, h, and_assoc]
  · intro p _ hdo hdue hmem
    rw [riskWatch7, List.mem_filter] at hmem
    have hp : primaryDate p = none := by
      rw [primaryDate, hdo, hdue]
    rw [risk7Pred] at hmem
    rw [hp] at hmem
    simp [JsTime.ltNum] at hmem

/-- C10: the `/analysis/7day` risk filter (absent instant mapped to
`Infinity`, then `t < soon`) and the `/analysis/period` risk filter (absent
instant returns false directly) are the same predicate, so both handlers
select the same risk-watch items. -/
theorem riskPred_equiv :
    (∀ (soon : Int) (p : Page), risk7Pred soon p = riskPeriodPred soon p)
      ∧ ∀ (items : List Page) (soon : Int),
          riskWatch7 items soon = riskWatchPeriod items soon := by
  have hpred : ∀ (soon : Int) (p : Page), risk7Pred soon p = riskPeriodPred soon p := by
    intro soon p
    cases h : primaryDate p <;>
      simp [risk7Pred, riskPeriodPred, JsTime.ltNum, h]
  refine ⟨hpred, ?_⟩
  intro items soon
  rw [riskWatch7, riskWatchPeriod]
  exact List.filter_congr fun p _ => hpred soon p

/-- The `prioRank` lookup of the `/analysis/today` handler:
`{ HIGH: 1, MID: 2, LOW: 3, '': 4 }[ap] || 99`. -/
def prioRankOf (s : String) : Int :=
  if s = "HIGH" then 1 else if s = "MID" then 2 else if s = "LOW" then 3
  else if s = "" then 4 else 99

/-- The `statusRank` lookup of the `/analysis/today` handler:
`{ 'Not started': 1, 'In progress': 2, 'Done': 3, '': 4 }[st] || 99`. -/
def statusRankOf (s : String) : Int :=
  if s = "Not started" then 1 else if s = "In progress" then 2
  else if s = "Done" then 3 else if s = "" then 4 else 99

/-- `Number.MAX_SAFE_INTEGER`, the sentinel used for items with no primary
instant in the today sort. -/
def maxSafeInt : Int := 9007199254740991

/-- `getTime(p)` of the today sort: the resolved primary instant, or
`Number.MAX_SAFE_INTEGER` when absent. -/
def getTimeOf (p : Page) : Int :=
  match primaryDate p with
  | some t => t
  | none => maxSafeInt

/-- The three-way comparator of `items.sort` in `/analysis/today`
(src/unnamed/part_000 lines 446-456): priority rank difference, then primary
time difference, then status rank difference. -/
def cmpToday (a b : Page) : Int :=
  if prioRankOf (getPriority a) ≠ prioRankOf (getPriority b) then
    prioRankOf (getPriority a) - prioRankOf (getPriority b)
  else if getTimeOf a ≠ getTimeOf b then getTimeOf a - getTimeOf b
  else statusRankOf (getStatus a) - statusRankOf (getStatus b)

/-- The non-strict order induced by the comparator (a stable JS
`Array.prototype.sort` keeps `a` no later than `b` whenever the comparator is
non-positive). -/
def todayLe (a b : Page) : Prop := cmpToday a b ≤ 0

instance : DecidableRel todayLe := fun a b =>
  inferInstanceAs (Decidable (cmpToday a b ≤ 0))

/-- `items.sort(comparator)`: ES2019 `Array.prototype.sort` is stable, so it
is modelled as a stable insertion sort by the comparator order. -/
def sortToday (l : List Page) : List Page := List.insertionSort todayLe l

/-- The overdue/scheduled partition loop of `/analysis/today`
(src/unnamed/part_000 lines 464-476), which also collects the timed
scheduled items: primary instant strictly before `now` goes to `overdue`;
present but not past goes to `scheduled` and to the timed list; absent goes
to `scheduled` formatted against `"do"`. -/
def todayPartition (now : Int) :
    List Page → List CoachLine × List CoachLine × List (Int × CoachLine)
  | [] => ([], [], [])
  | p :: rest =>
    let acc := todayPartition now rest
    match primaryDate p with
    | some d =>
      if d < now then (asCoachLine p (primaryWhich p) now :: acc.1, acc.2.1, acc.2.2)
      else (acc.1, asCoachLine p (primaryWhich p) now :: acc.2.1,
            (d, asCoachLine p (primaryWhich p) now) :: acc.2.2)
    | none => (acc.1, asCoachLine p "do" now :: acc.2.1, acc.2.2)

/-- Whether an item's resolved primary instant exists and is strictly in the
past relative to `now`. -/
def isPast (now : Int) (p : Page) : Bool :=
  match primaryDate p with
  | some d => decide (d < now)
  | none => false

/-- The coach line the partition loop produces for an item that is not
overdue (absent instants are formatted against `"do"`). -/
def scheduledLine (now : Int) (p : Page) : CoachLine :=
  match primaryDate p with
  | some _ => asCoachLine p (primaryWhich p) now
  | none => asCoachLine p "do" now

/-- C1: the partition loop routes every input item into exactly one of
`overdue` (primary instant strictly before `now`) and `scheduled` (instant at
or after `now`, or no instant), so the two lists are the corresponding
filters of the input and their lengths add up to the input length — also
after the handler's sorting step. -/
theorem todayPartition_partitions (now : Int) (items : List Page) :
    (todayPartition now items).1
        = (items.filter (isPast now)).map (fun p => asCoachLine p (primaryWhich p) now)
      ∧ (todayPartition now items).2.1
        = (items.filter (fun p => !isPast now p)).map (scheduledLine now)
      ∧ (todayPartition now items).1.length + (todayPartition now items).2.1.length
        = items.length
      ∧ (todayPartition now (sortToday items)).1.length
          + (todayPartition now (sortToday items)).2.1.length
        = items.length := by
  have main : ∀ l : List Page,
      (todayPartition now l).1
          = (l.filter (isPast now)).map (fun p => asCoachLine p (primaryWhich p) now)
        ∧ (todayPartition now l).2.1
          = (l.filter (fun p => !isPast now p)).map (scheduledLine now) := by
    intro l
    induction l with
    | nil => exact ⟨rfl, rfl⟩
    | cons p rest ih =>
      cases hd : primaryDate p with
      | some d =>
        by_cases hlt : d < now <;>
          simp [todayPartition, hd, hlt, isPast, scheduledLine, List.filter, ih.1, ih.2]
      | none =>
        simp [todayPartition, hd, isPast, scheduledLine, List.filter, ih.1, ih.2]
  have len : ∀ l : List Page,
      (todayPartition now l).1.length + (todayPartition now l).2.1.length = l.length := by
    intro l
    rcases main l with ⟨h1, h2⟩
    rw [h1, h2, List.length_map, List.length_map]
    simpa using (List.length_eq_length_filter_add (l := l) (isPast now)).symm
  rcases main items with ⟨h1, h2⟩
  refine ⟨h1, h2, len items, ?_⟩
  rw [len (sortToday items)]
  exact (List.perm_insertionSort todayLe items).length_eq

/-- Day count since 1970-01-01 of a proleptic-Gregorian civil date, as
computed by the platform's calendar (Hinnant's `days_from_civil`); models the
arithmetic behind `new Date(y, m, d, …).getTime()`. -/
def daysFromCivil (y m d : Int) : Int :=
  let y2 := if m ≤ 2 then y - 1 else y
  let era := y2 / 400
  let yoe := y2 - era * 400
  let mp := if 2 < m then m - 3 else m + 9
  let doy := (153 * mp + 2) / 5 + d - 1
  let doe := yoe * 365 + yoe / 4 - yoe / 100 + doy
  era * 146097 + doe - 719468

/-- Civil date `(year, month, day)` of a day count since 1970-01-01
(Hinnant's `civil_from_days`); models `getFullYear` / `getMonth` / `getDate`
of a wall-clock reading (the JS `getMonth` is zero-based, the handler adds 1
back before reporting, so months are kept one-based here throughout). -/
def civilFromDays (z0 : Int) : Int × Int × Int :=
  let z := z0 + 719468
  let era := z / 146097
  let doe := z - era * 146097
  let yoe := (doe - doe / 1460 + doe / 36524 - doe / 146096) / 365
  let y := yoe + era * 400
  let doy := doe - (365 * yoe + yoe / 4 - yoe / 100)
  let mp := (5 * doy + 2) / 153
  let d := doy - (153 * mp + 2) / 5 + 1
  let m := if mp < 10 then mp + 3 else mp - 9
  (if m ≤ 2 then y + 1 else y, m, d)

/-- The value returned by `startEndOfToday()`: UTC window bounds in epoch
milliseconds plus the civil date in the zone. -/
structure TodayWindow where
  startMs : Int
  endMs : Int
  y : Int
  m : Int
  d : Int
  deriving Repr, DecidableEq

/-- `startEndOfToday()` (src/unnamed/part_000 lines 119-129), made explicit
in its inputs: `nowMs` is the reference instant, `zoneOffMs` the configured
zone's offset at that instant (milliseconds added to UTC to get the zone's
wall clock; America/Chicago in summer is `-18000000`), and `serverOffMs` the
offset of the zone the JS runtime itself runs in, used both to parse the
`toLocaleString` wall-clock text back into a `Date` (`chicagoNow`) and to
build `new Date(y, m, d, …)`.  The `toLocaleString` text carries whole
seconds only, so the reconstruction drops the millisecond remainder. -/
def startEndOfToday (nowMs serverOffMs zoneOffMs : Int) : TodayWindow :=
  let locMs := nowMs + zoneOffMs
  let z := locMs / dayMs
  let sod := locMs % dayMs
  let sodSec := sod - sod % 1000
  let c := civilFromDays z
  let base := daysFromCivil c.1 c.2.1 c.2.2 * dayMs
  let chicagoNowMs := base + sodSec - serverOffMs
  let delta := nowMs - chicagoNowMs
  { startMs := (base - serverOffMs) + delta
    endMs := (base + 86399000 - serverOffMs) + delta
    y := c.1, m := c.2.1, d := c.2.2 }

/-- The instant of the configured zone's civil midnight for the civil day
containing `nowMs`, obtained by applying the zone offset at `nowMs` uniformly:
this is what the spec calls the start of the "today" window. -/
def zoneMidnightUtc (nowMs zoneOffMs : Int) : Int :=
  (nowMs + zoneOffMs) / dayMs * dayMs - zoneOffMs

/-- C4: for a whole-second reference instant and whole-second zone offset,
`startEndOfToday` returns exactly civil midnight through civil 23:59:59 of
the zone's current date translated to absolute instants with the single
offset applied to both bounds, independent of the server's own zone; at
reference instant 2024-06-15T18:00:00Z with the America/Chicago summer
offset (UTC-5) this is 2024-06-15T05:00:00Z through 2024-06-16T04:59:59Z,
civil date June 15, 2024. -/
theorem startEndOfToday_spec (nowMs serverOffMs zoneOffMs : Int)
    (hn : nowMs % 1000 = 0) (hz : zoneOffMs % 1000 = 0) :
    (startEndOfToday nowMs serverOffMs zoneOffMs).startMs
        = zoneMidnightUtc nowMs zoneOffMs
      ∧ (startEndOfToday nowMs serverOffMs zoneOffMs).endMs
        = zoneMidnightUtc nowMs zoneOffMs + 86399000
      ∧ startEndOfToday 1718474400000 (-21600000) (-18000000)
        = { startMs := 1718427600000, endMs := 1718513999000, y := 2024, m := 6, d := 15 } := by
  have he : ((nowMs + zoneOffMs) % 86400000) % 1000 = 0 := by
    rw [Int.emod_emod_of_dvd _ (by norm_num : (1000 : Int) ∣ 86400000)]
    omega
  refine ⟨?_, ?_, by decide⟩ <;>
  · simp only [startEndOfToday, zoneMidnightUtc, dayMs, TodayWindow.mk.injEq]
    omega

/-- Witness for C4 at the spec's reference instant 2024-06-15T18:00:00Z with
the America/Chicago summer offset and a UTC-6 server zone. -/
theorem startEndOfToday_spec_witness :
    ((1718474400000 : Int) % 1000 = 0 ∧ (-18000000 : Int) % 1000 = 0)
      ∧ (startEndOfToday 1718474400000 (-21600000) (-18000000)).startMs
          = zoneMidnightUtc 1718474400000 (-18000000)
      ∧ (startEndOfToday 1718474400000 (-21600000) (-18000000)).endMs
          = zoneMidnightUtc 1718474400000 (-18000000) + 86399000 :=
  ⟨⟨by decide, by decide⟩,
    (startEndOfToday_spec 1718474400000 (-21600000) (-18000000) (by decide) (by decide)).1,
    (startEndOfToday_spec 1718474400000 (-21600000) (-18000000) (by decide) (by decide)).2.1⟩

/-- `scheduledTimed.sort((a, b) => a.date - b.date)`: stable sort of the
timed scheduled entries, ascending by instant. -/
def sortTimed (l : List (Int × CoachLine)) : List (Int × CoachLine) :=
  List.insertionSort (fun a b => a.1 - b.1 ≤ 0) l

/-- A gap record of the `/analysis/today` response. -/
structure Gap where
  window : String
  suggestions : List (Option String)
  deriving Repr, DecidableEq

/-- The suggestions attached to every gap: up to two names from the full
(sorted) item list filtered to priority ≠ HIGH — the same list for each gap,
not scoped to what fits inside it. -/
def gapSuggestions (items : List Page) : List (Option String) :=
  ((items.filter (fun p => getPriority p != "HIGH")).take 2).map Page.name

/-- The formatted time-range label of a gap. -/
def gapWindowLabel (a b : Int) : String := localClock a ++ "–" ++ localClock b

/-- The gap scan of `/analysis/today` (src/unnamed/part_000 lines 481-493):
walk consecutive pairs of the sorted timed list and emit a gap whenever the
pair is at least 60 minutes apart.  The source compares `(b - a) / 60000 >=
60` on exact integer millisecond differences, which is equivalent to
`b - a >= 3600000` (the float division cannot round across the threshold). -/
def gapScan (items : List Page) : List (Int × CoachLine) → List Gap
  | a :: b :: rest =>
    (if 3600000 ≤ b.1 - a.1 then
        [{ window := gapWindowLabel a.1 b.1, suggestions := gapSuggestions items }]
      else []) ++ gapScan items (b :: rest)
  | _ => []

/-- The full gap pipeline of the handler: sort the items, partition, sort
the timed scheduled entries by instant, scan for gaps. -/
def todayGaps (items : List Page) (now : Int) : List Gap :=
  gapScan (sortToday items) (sortTimed (todayPartition now (sortToday items)).2.2)

/-- A page carrying only a name and a do-start instant, as used by the
concrete gap-detection example. -/
def timedDoPage (nm : String) (t : Int) : Page :=
  { id := nm, name := some nm, status := none, type := none, priority := none,
    alignment := none, doDate := some ⟨some t⟩, dueDate := none }

/-- Three timed items at 09:00, 09:30 and 11:00 zone-local (America/Chicago,
2024-06-15: 14:00Z, 14:30Z and 16:00Z). -/
def gapExItems : List Page :=
  [timedDoPage "A" 1718460000000, timedDoPage "B" 1718461800000, timedDoPage "C" 1718467200000]

/-- C3: the gap scan emits a record exactly for the consecutive pairs of the
sorted timed list that are at least 60 minutes apart; on the concrete 09:00 /
09:30 / 11:00 example the full pipeline reports exactly one gap, the
09:30–11:00 pair, and nothing for the 09:00–09:30 pair. -/
theorem gapScan_spec :
    (∀ (items : List Page) (l : List (Int × CoachLine)),
        gapScan items l
          = ((l.zip l.tail).filter (fun ab => decide (3600000 ≤ ab.2.1 - ab.1.1))).map
              (fun ab => { window := gapWindowLabel ab.1.1 ab.2.1,
                           suggestions := gapSuggestions items }))
      ∧ todayGaps gapExItems 1718450000000
        = [{ window := "9:30 AM–11:00 AM", suggestions := [some "A", some "B"] }] := by
  constructor
  · intro items l
    induction l with
    | nil => rfl
    | cons a t ih =>
      cases t with
      | nil => rfl
      | cons b rest =>
        by_cases hg : 3600000 ≤ b.1 - a.1 <;>
          simp [gapScan, ih, hg, List.filter, List.zip]
  · decide

/-- The sentinel-valued sort key actually compared by the comparator:
(priority rank, primary time or `MAX_SAFE_INTEGER`, status rank). -/
def rawKey (p : Page) : Int × Int × Int :=
  (prioRankOf (getPriority p), getTimeOf p, statusRankOf (getStatus p))

/-- Lexicographic non-strict order on integer triples. -/
def rawLe (k1 k2 : Int × Int × Int) : Prop :=
  k1.1 < k2.1 ∨ (k1.1 = k2.1 ∧ (k1.2.1 < k2.2.1 ∨ (k1.2.1 = k2.2.1 ∧ k1.2.2 ≤ k2.2.2)))

/-- The comparator's order is the lexicographic order on the raw keys. -/
theorem cmpToday_le_iff (a b : Page) : cmpToday a b ≤ 0 ↔ rawLe (rawKey a) (rawKey b) := by
  simp only [cmpToday, rawKey, rawLe]
  split_ifs <;> omega

instance : IsTotal Page todayLe :=
  ⟨fun a b => by
    rw [todayLe, todayLe, cmpToday_le_iff, cmpToday_le_iff]
    simp only [rawLe]
    omega⟩

instance : IsTrans Page todayLe :=
  ⟨fun a b c hab hbc => by
    rw [todayLe, cmpToday_le_iff] at hab hbc ⊢
    simp only [rawLe] at hab hbc ⊢
    omega⟩

/-- The claim-level sort key: priority rank, the resolved primary instant
with absence meaning "last" (+infinity), and status rank. -/
def sortKey (p : Page) : Int × Option Int × Int :=
  (prioRankOf (getPriority p), primaryDate p, statusRankOf (getStatus p))

/-- Strict order on optional instants where `none` is plus infinity. -/
def instLtB : Option Int → Option Int → Bool
  | some a, some b => decide (a < b)
  | some _, none => true
  | none, _ => false

/-- Non-decreasing comparison of claim-level key tuples: lexicographic with
absent instants last. -/
def keyLeB (k1 k2 : Int × Option Int × Int) : Bool :=
  decide (k1.1 < k2.1) ||
    (decide (k1.1 = k2.1) &&
      (instLtB k1.2.1 k2.2.1 ||
        (decide (k1.2.1 = k2.2.1) && decide (k1.2.2 ≤ k2.2.2))))

/-- Bound stating that an item's primary instant (when present) lies below
the `MAX_SAFE_INTEGER` sentinel — true of every representable JS date, whose
epoch magnitude is at most 8.64e15. -/
def instantBounded (p : Page) : Prop :=
  ∀ t : Int, primaryDate p = some t → t < maxSafeInt

/-- For items with bounded instants, the comparator order implies the
claim-level key order (absent instants behave as +infinity). -/
theorem todayLe_keyLeB {a b : Page} (ha : instantBounded a) (hb : instantBounded b)
    (hle : todayLe a b) : keyLeB (sortKey a) (sortKey b) = true := by
  rw [todayLe, cmpToday_le_iff] at hle
  cases hda : primaryDate a with
  | some ta =>
    cases hdb : primaryDate b with
    | some tb =>
      simp [rawLe, rawKey, getTimeOf, hda, hdb] at hle
      simp [keyLeB, sortKey, instLtB, hda, hdb]
      omega
    | none =>
      have hta := ha ta hda
      simp [rawLe, rawKey, getTimeOf, hda, hdb] at hle
      simp [keyLeB, sortKey, instLtB, hda, hdb]
      omega
  | none =>
    cases hdb : primaryDate b with
    | some tb =>
      have htb := hb tb hdb
      simp [rawLe, rawKey, getTimeOf, hda, hdb] at hle
      simp [keyLeB, sortKey, instLtB, hda, hdb]
      omega
    | none =>
      simp [rawLe, rawKey, getTimeOf, hda, hdb] at hle
      simp [keyLeB, sortKey, instLtB, hda, hdb]
      omega

/-- Equal claim-level keys collapse to equal raw keys. -/
theorem sortKey_eq_rawKey_eq {a b : Page} (h : sortKey a = sortKey b) :
    rawKey a = rawKey b := by
  simp only [sortKey, Prod.mk.injEq] at h
  simp only [rawKey, getTimeOf, h.1, h.2.1, h.2.2, Prod.mk.injEq, and_self]

/-- `rawLe` is reflexive. -/
theorem rawLe_refl (k : Int × Int × Int) : rawLe k k :=
  Or.inr ⟨rfl, Or.inr ⟨rfl, le_refl _⟩⟩

/-- Equal claim-level keys are equivalent for the comparator order. -/
theorem sortKey_eq_todayLe {a b : Page} (h : sortKey a = sortKey b) : todayLe a b := by
  rw [todayLe, cmpToday_le_iff, sortKey_eq_rawKey_eq h]
  exact rawLe_refl _

/-- Filtering an ordered insertion by a predicate that only holds on a single
equivalence class of the order either prepends the inserted element (when it
is in the class) or leaves the filtered list unchanged. -/
theorem filter_orderedInsert {α : Type _} (r : α → α → Prop) [DecidableRel r]
    (P : α → Bool) (a : α) :
    ∀ l : List α, (∀ b ∈ l, P a = true → P b = true → r a b) →
      (List.orderedInsert r a l).filter P
        = if P a then a :: l.filter P else l.filter P := by
  intro l
  induction l with
  | nil =>
    intro _
    by_cases hPa : P a <;> simp [List.orderedInsert, List.filter, hPa]
  | cons b t ih =>
    intro hcl
    by_cases hr : r a b
    · rw [List.orderedInsert_of_le r t hr]
      by_cases hPa : P a <;> simp [List.filter, hPa]
    · have ih' := ih fun c hc => hcl c (List.mem_cons_of_mem b hc)
      simp only [List.orderedInsert, if_neg hr]
      by_cases hPa : P a
      · have hPb : P b = false := by
          by_contra hb
          exact hr (hcl b (List.mem_cons_self b t) hPa (by simpa using hb))
        simp [List.filter, hPb, ih', hPa]
      · simp [List.filter, ih', hPa]

/-- Insertion sort is stable on each equivalence class of the order: the
filter of the output by a class-predicate equals the filter of the input. -/
theorem filter_insertionSort {α : Type _} (r : α → α → Prop) [DecidableRel r]
    (P : α → Bool) (h : ∀ x y : α, P x = true → P y = true → r x y) :
    ∀ l : List α, (List.insertionSort r l).filter P = l.filter P := by
  intro l
  induction l with
  | nil => rfl
  | cons a t ih =>
    simp only [List.insertionSort]
    rw [filter_orderedInsert r P a _ (fun b _ hPa hPb => h a b hPa hPb), ih]
    by_cases hPa : P a <;> simp [List.filter, hPa]

/-- C2: the daily-focus sort is a permutation of its input, every adjacent
pair of the output is non-decreasing in the three-key tuple (priority rank,
primary instant with absence last, status rank), and the sort is stable: the
subsequence of items having any fixed key tuple is preserved verbatim. -/
theorem sortToday_spec (items : List Page) (k : Int × Option Int × Int)
    (h : ∀ p ∈ items, instantBounded p) :
    (sortToday items).Perm items
      ∧ List.Chain' (fun a b => keyLeB (sortKey a) (sortKey b) = true) (sortToday items)
      ∧ (sortToday items).filter (fun x => decide (sortKey x = k))
        = items.filter (fun x => decide (sortKey x = k)) := by
  have hperm : (sortToday items).Perm items := List.perm_insertionSort todayLe items
  refine ⟨hperm, ?_, ?_⟩
  · have hsorted : List.Pairwise todayLe (sortToday items) :=
      List.sorted_insertionSort todayLe items
    have hpair : List.Pairwise
        (fun a b => keyLeB (sortKey a) (sortKey b) = true) (sortToday items) :=
      hsorted.imp_of_mem fun {a b} hma hmb hr =>
        todayLe_keyLeB (h a (hperm.mem_iff.mp hma)) (h b (hperm.mem_iff.mp hmb)) hr
    exact hpair.chain'
  · exact filter_insertionSort todayLe _
      (fun x y hx hy => by
        have hkx : sortKey x = k := of_decide_eq_true hx
        have hky : sortKey y = k := of_decide_eq_true hy
        exact sortKey_eq_todayLe (hkx.trans hky.symm))
      items

instance (p : Page) : Decidable (instantBounded p) :=
  match h : primaryDate p with
  | some t =>
    if ht : t < maxSafeInt then
      .isTrue (fun t' ht' => by rw [h] at ht'; cases ht'; exact ht)
    else
      .isFalse (fun hall => ht (hall t h))
  | none => .isTrue (fun t' ht' => by rw [h] at ht'; cases ht')

/-- A small concrete item list exercising all three sort keys. -/
def sortExItems : List Page :=
  [{ id := "p1", name := some "P1", status := none, type := none, priority := some "MID",
     alignment := none, doDate := some ⟨some 100⟩, dueDate := none },
   { id := "p2", name := some "P2", status := some "Done", type := none, priority := some "HIGH",
     alignment := none, doDate := none, dueDate := none },
   { id := "p3", name := some "P3", status := some "Not started", type := none, priority := none,
     alignment := none, doDate := none, dueDate := some ⟨some 50⟩ },
   { id := "p4", name := some "P4", status := some "In progress", type := none,
     priority := some "HIGH", alignment := none, doDate := some ⟨some 200⟩, dueDate := none }]

/-- Witness for C2 on a concrete item list. -/
theorem sortToday_spec_witness :
    (∀ p ∈ sortExItems, instantBounded p)
      ∧ ((sortToday sortExItems).Perm sortExItems
        ∧ List.Chain' (fun a b => keyLeB (sortKey a) (sortKey b) = true) (sortToday sortExItems)
        ∧ (sortToday sortExItems).filter (fun x => decide (sortKey x = (1, some 200, 2)))
          = sortExItems.filter (fun x => decide (sortKey x = (1, some 200, 2)))) :=
  ⟨by decide, sortToday_spec sortExItems (1, some 200, 2) (by decide)⟩

end NolaBuddy
